import Mathlib

/-!
Verification of the Prompt2Frame request admission and resilience layer.

The repository's observable source is the UI and a serverless reverse-proxy
handler (`api/generate.js`); the backend core (TTL caches, sliding-window
rate limiter, circuit breaker, request coordinator) is documented in the
specification and the repository READMEs but its code is not present here.
Definitions for that core are therefore modelled from the spec, faithful to
its words; the proxy handler is embedded directly from its source.

All time is modelled as `Nat` (timestamps and durations in abstract units).
-/

namespace P2F

/-! ## TTL cache

Modelled from the spec: `TTLCache<K,V>` with `CacheEntry<V> = { value,
insertedAt, ttl }`, lazy expiry on lookup. An entry is logically dead once
`now - insertedAt >= ttl`. `Put` inserts or replaces, resetting the expiry
clock to `now + ttl`; `Delete` removes unconditionally. Keys are strings
(fingerprints). The store is an association list with at most one live
binding per key. -/

structure CacheEntry (V : Type) where
  value : V
  insertedAt : Nat
  ttl : Nat
  deriving Repr, DecidableEq

def TTLCache (V : Type) : Type := List (String × CacheEntry V)

instance [DecidableEq V] : DecidableEq (TTLCache V) :=
  inferInstanceAs (DecidableEq (List (String × CacheEntry V)))

/-- Modelled from the spec: an entry is logically dead once
`now - insertedAt >= ttl`. -/
def entryDead (e : CacheEntry V) (now : Nat) : Bool :=
  e.ttl ≤ now - e.insertedAt

/-- Modelled from the spec: `Get(key) -> (value, found)` returns a live
(non-expired) entry; an expired entry is treated as absent. -/
def tcGet (c : TTLCache V) (k : String) (now : Nat) : Option V :=
  match c.lookup k with
  | none => none
  | some e => if entryDead e now then none else some e.value

/-- Modelled from the spec: `Put(key, value, ttl)` inserts or replaces the
entry, resetting its expiry clock to `now + ttl`. -/
def tcPut (c : TTLCache V) (k : String) (v : V) (ttl now : Nat) : TTLCache V :=
  (k, ⟨v, now, ttl⟩) :: c.filter (fun p => !(p.1 == k))

/-- Modelled from the spec: `Delete(key)` removes an entry unconditionally;
no error if absent. -/
def tcDelete (c : TTLCache V) (k : String) : TTLCache V :=
  c.filter (fun p => !(p.1 == k))

/-- Get-after-put on the same key: the entry is live before `T0 + t` and
dead from `T0 + t` on (for lookups at or after the write time). -/
theorem tcGet_tcPut (c : TTLCache V) (k : String) (v : V) (t T0 now : Nat)
    (h : T0 ≤ now) :
    tcGet (tcPut c k v t T0) k now = if now < T0 + t then some v else none := by
  unfold tcGet tcPut entryDead
  simp only [List.lookup, beq_self_eq_true]
  by_cases hlt : now < T0 + t
  · rw [if_pos hlt]
    simp only [decide_eq_true_eq]
    rw [if_neg (by omega)]
  · rw [if_neg hlt]
    simp only [decide_eq_true_eq]
    rw [if_pos (by omega)]

/-! ## Claim C2 -/

/-- **C2.** After `Put(k, v, t)` at time `T0` (inserting or replacing the
entry and resetting its expiry clock to `T0 + t`), a `Get(k)` performed at
any time `now` with `T0 ≤ now` (no intervening `Put`/`Delete` on `k` in this
pure state) returns `v` exactly when `now < T0 + t`, and treats the entry as
absent when `T0 + t ≤ now`. -/
theorem ttl_put_get (c : TTLCache V) (k : String) (v : V) (t T0 now : Nat)
    (h : T0 ≤ now) :
    tcGet (tcPut c k v t T0) k now = if now < T0 + t then some v else none :=
  tcGet_tcPut c k v t T0 now h

/-- Witness for C2 at a concrete input: put at time 5 with ttl 3; get at
time 7 (live) and the same statement instantiated. -/
theorem ttl_put_get_witness :
    (5 ≤ 7) ∧
      tcGet (tcPut ([] : TTLCache Nat) "k" 42 3 5) "k" 7 =
        if 7 < 5 + 3 then some 42 else none :=
  ⟨by decide, ttl_put_get [] "k" 42 3 5 7 (by decide)⟩

/-! ## Rate limiter

Modelled from the spec: sliding-window counting. `Admit(clientId)`: on each
call, purge timestamps older than `now - W` from the client's window, then
test `count < N`; if true, record `now` and admit; else reject. A timestamp
`ts` is "older than `now - W`" when `ts < now - W`; the kept ones satisfy
`now - W ≤ ts`. -/

/-- Modelled from the spec: one `Admit` call on a single client's window.
Returns the admission decision and the updated window. -/
def admitStep (N W : Nat) (window : List Nat) (now : Nat) : Bool × List Nat :=
  let purged := window.filter (fun ts => decide (now - W ≤ ts))
  if purged.length < N then (true, now :: purged) else (false, purged)

/-- Runs `admitStep` over a sequence of request times from one client,
collecting the decisions and the final window. -/
def runAdmit (N W : Nat) (window : List Nat) : List Nat → List Bool × List Nat
  | [] => ([], window)
  | t :: ts =>
      let s := admitStep N W window t
      let r := runAdmit N W s.2 ts
      (s.1 :: r.1, r.2)

/-- When every recorded timestamp is within `W` of `now`, the purge removes
nothing. -/
theorem admitStep_no_purge (N W : Nat) (window : List Nat) (now : Nat)
    (h : ∀ ts ∈ window, now - W ≤ ts) :
    admitStep N W window now =
      if window.length < N then (true, now :: window) else (false, window) := by
  unfold admitStep
  rw [List.filter_eq_self.mpr (by simpa using h)]

/-- All requests in a batch are admitted when the window has room for the
whole batch and everything stays inside the sliding window bounded by `M`:
each decision is `true`, the final window has grown by the batch size, and
its timestamps are still `≥ M - W`. -/
theorem runAdmit_all_admitted (N W M : Nat) :
    ∀ (ts window : List Nat),
      (∀ t ∈ ts, t ≤ M ∧ M - W ≤ t) →
      (∀ x ∈ window, M - W ≤ x) →
      window.length + ts.length ≤ N →
      (runAdmit N W window ts).1 = List.replicate ts.length true ∧
        (runAdmit N W window ts).2.length = window.length + ts.length ∧
        (∀ x ∈ (runAdmit N W window ts).2, M - W ≤ x) := by
  intro ts
  induction ts with
  | nil => intro window _ hw _; exact ⟨rfl, rfl, hw⟩
  | cons t ts ih =>
      intro window hts hw hlen
      have ht : t ≤ M ∧ M - W ≤ t := hts t (List.mem_cons_self t ts)
      have hpurge : ∀ x ∈ window, t - W ≤ x := by
        intro x hx
        have := hw x hx
        omega
      have hstep : admitStep N W window t = (true, t :: window) := by
        rw [admitStep_no_purge N W window t hpurge, if_pos (by simp at hlen ⊢; omega)]
      have hw' : ∀ x ∈ t :: window, M - W ≤ x := by
        intro x hx
        rcases List.mem_cons.mp hx with h | h
        · omega
        · exact hw x h
      have hts' : ∀ u ∈ ts, u ≤ M ∧ M - W ≤ u := fun u hu => hts u (List.mem_cons_of_mem t hu)
      have hlen' : (t :: window).length + ts.length ≤ N := by simp at hlen ⊢; omega
      obtain ⟨h1, h2, h3⟩ := ih (t :: window) hts' hw' hlen'
      unfold runAdmit
      rw [hstep]
      refine ⟨by simpa [List.replicate_succ] using h1, ?_, h3⟩
      simp only [h2, List.length_cons]
      omega

/-- Splitting a run of requests into two batches. -/
theorem runAdmit_append (N W : Nat) (ts us : List Nat) :
    ∀ window, runAdmit N W window (ts ++ us) =
      ((runAdmit N W window ts).1 ++ (runAdmit N W (runAdmit N W window ts).2 us).1,
        (runAdmit N W (runAdmit N W window ts).2 us).2) := by
  induction ts with
  | nil => intro window; simp [runAdmit]
  | cons t ts ih => intro window; simp [runAdmit, ih]

/-! ## Claim C4 -/

/-- **C4.** `Admit` purges timestamps older than `now - W` and admits
(recording `now`) exactly when the remaining count is `< N`; consequently a
client issuing `N + 1` sequential requests, all within one window `W` of the
final request at time `M`, has its first `N` requests admitted and exactly
the `(N+1)`-th rejected. -/
theorem rate_limiter_sliding_window (N W M : Nat) (ts : List Nat)
    (hlen : ts.length = N + 1)
    (hin : ∀ t ∈ ts, t ≤ M ∧ M - W ≤ t) :
    (∀ (window : List Nat) (now : Nat),
        (admitStep N W window now).1 =
          ((window.filter (fun x => decide (now - W ≤ x))).length < N : Bool)) ∧
      (runAdmit N W [] ts).1 = List.replicate N true ++ [false] := by
  constructor
  · intro window now
    unfold admitStep
    by_cases h : (window.filter (fun x => decide (now - W ≤ x))).length < N
    · rw [if_pos h]; exact (decide_eq_true h).symm
    · rw [if_neg h]; exact (decide_eq_false h).symm
  · obtain ⟨front, last, hsplit⟩ : ∃ front last, ts = front ++ [last] := by
      rcases List.eq_nil_or_concat ts with h | ⟨front, last, h⟩
      · simp [h] at hlen
      · exact ⟨front, last, by simpa [List.concat_eq_append] using h⟩
    subst hsplit
    have hfl : front.length = N := by simpa using hlen
    have hfront : ∀ t ∈ front, t ≤ M ∧ M - W ≤ t := by
      intro t htm; exact hin t (by simp [htm])
    have hlast : last ≤ M ∧ M - W ≤ last :=
      hin last (by simp)
    obtain ⟨h1, h2, h3⟩ :=
      runAdmit_all_admitted N W M front [] hfront (by simp) (by simp [hfl])
    rw [runAdmit_append]
    have hw := (runAdmit N W [] front).2
    have hstep : admitStep N W (runAdmit N W [] front).2 last =
        (false, (runAdmit N W [] front).2) := by
      rw [admitStep_no_purge N W _ last (by intro x hx; have := h3 x hx; omega)]
      rw [if_neg (by simp at h2; omega)]
    simp only [runAdmit, hstep, h1, hfl]

/-- Witness for C4 at a concrete input: limit 2 per window 10, requests at
times 3, 5, 8 (all within the window ending at 8). -/
theorem rate_limiter_sliding_window_witness :
    ([3, 5, 8].length = 2 + 1) ∧
      ((∀ (window : List Nat) (now : Nat),
          (admitStep 2 10 window now).1 =
            ((window.filter (fun x => decide (now - 10 ≤ x))).length < 2 : Bool)) ∧
        (runAdmit 2 10 [] [3, 5, 8]).1 = List.replicate 2 true ++ [false]) :=
  ⟨by decide,
    rate_limiter_sliding_window 2 10 8 [3, 5, 8] (by decide) (by decide)⟩

/-! ## Circuit breaker

Modelled from the spec: states `Closed`, `Open`, `HalfOpen` with a failure
counter (consecutive failures while Closed), a success counter (half-open
trial) and `openedAt`. Closed: calls pass through; reaching the failure
threshold transitions to Open recording `openedAt`. Open: calls are
rejected without invoking the operation until `now - openedAt >= cooldown`,
when the breaker transitions to HalfOpen and the call is allowed through as
a trial. HalfOpen: a trial success increments the success counter and
reaching the success threshold transitions back to Closed with counters
reset; a trial failure immediately transitions back to Open and resets
`openedAt`. -/

inductive CircuitState where
  | Closed
  | Open
  | HalfOpen
  deriving Repr, DecidableEq

structure Breaker where
  state : CircuitState
  failureCount : Nat
  successCount : Nat
  openedAt : Nat
  deriving Repr, DecidableEq

structure BreakerCfg where
  failThreshold : Nat
  cooldown : Nat
  succThreshold : Nat
  deriving Repr, DecidableEq

/-- The initial Closed breaker. -/
def Breaker.init : Breaker := ⟨CircuitState.Closed, 0, 0, 0⟩

/-- Modelled from the spec: whether a `Call` at time `now` is allowed
through to the protected operation. -/
def breakerAllows (cfg : BreakerCfg) (b : Breaker) (now : Nat) : Bool :=
  match b.state with
  | CircuitState.Closed => true
  | CircuitState.Open => cfg.cooldown ≤ now - b.openedAt
  | CircuitState.HalfOpen => true

/-- Modelled from the spec: the state after a half-open trial call whose
operation returned `ok`. -/
def trialAfter (cfg : BreakerCfg) (b : Breaker) (now : Nat) (ok : Bool) : Breaker :=
  if ok then
    if cfg.succThreshold ≤ b.successCount + 1 then
      ⟨CircuitState.Closed, 0, 0, b.openedAt⟩
    else
      ⟨CircuitState.HalfOpen, b.failureCount, b.successCount + 1, b.openedAt⟩
  else
    ⟨CircuitState.Open, b.failureCount, 0, now⟩

/-- Modelled from the spec: the breaker state after an allowed call whose
operation returned `ok`. In `Open` past the cooldown the breaker has
transitioned to `HalfOpen` and this call is its trial. -/
def breakerAfter (cfg : BreakerCfg) (b : Breaker) (now : Nat) (ok : Bool) : Breaker :=
  match b.state with
  | CircuitState.Closed =>
      if ok then ⟨CircuitState.Closed, 0, b.successCount, b.openedAt⟩
      else if cfg.failThreshold ≤ b.failureCount + 1 then
        ⟨CircuitState.Open, b.failureCount + 1, b.successCount, now⟩
      else
        ⟨CircuitState.Closed, b.failureCount + 1, b.successCount, b.openedAt⟩
  | CircuitState.Open =>
      trialAfter cfg ⟨CircuitState.HalfOpen, b.failureCount, 0, b.openedAt⟩ now ok
  | CircuitState.HalfOpen => trialAfter cfg b now ok

/-- Modelled from the spec: `Call(operation) -> result | error`. The
operation's would-be result is `opOk`; the outcome is `some opOk` when the
call is let through and `none` when it is rejected without invoking the
operation. -/
def breakerCall (cfg : BreakerCfg) (b : Breaker) (now : Nat) (opOk : Bool) :
    Breaker × Option Bool :=
  if breakerAllows cfg b now then (breakerAfter cfg b now opOk, some opOk)
  else (b, none)

/-- Folding a sequence of consecutive failing calls from `Closed`. -/
def failRun (cfg : BreakerCfg) (b : Breaker) : List Nat → Breaker
  | [] => b
  | t :: ts => failRun cfg (breakerCall cfg b t false).1 ts

/-- Consecutive failing calls from a Closed breaker: once the failure count
reaches the threshold, the breaker is Open with `openedAt` the time of the
final failing call. -/
theorem failRun_closed_opens (cfg : BreakerCfg) :
    ∀ (ts : List Nat) (tF : Nat) (b : Breaker),
      b.state = CircuitState.Closed →
      b.failureCount + ts.length + 1 = cfg.failThreshold →
      failRun cfg b (ts ++ [tF]) =
        ⟨CircuitState.Open, cfg.failThreshold, b.successCount, tF⟩ := by
  intro ts
  induction ts with
  | nil =>
      intro tF b hb hc
      obtain ⟨st, fc, sc, oa⟩ := b
      simp only [List.length_nil] at hb hc
      subst hb
      have hF : cfg.failThreshold ≤ fc + 1 := by omega
      have hfc : fc + 1 = cfg.failThreshold := by omega
      simp [failRun, breakerCall, breakerAllows, breakerAfter, hF, hfc]
  | cons t ts ih =>
      intro tF b hb hc
      obtain ⟨st, fc, sc, oa⟩ := b
      simp only at hb hc
      subst hb
      simp only [List.cons_append, failRun, breakerCall, breakerAllows, breakerAfter,
        if_true, Bool.false_eq_true, if_false]
      rw [if_neg (by simp at hc; omega)]
      exact ih tF ⟨CircuitState.Closed, fc + 1, sc, oa⟩ rfl (by simp at hc ⊢; omega)

/-! ## Claim C5 -/

/-- **C5.** The circuit-breaker state machine: (1) from the initial Closed
state, `F` consecutive failures leave the breaker Open with `openedAt` the
time of the final failure; (2) while Open and `now - openedAt < cooldown`, a
call is rejected without invoking the operation and the state is unchanged;
(3) a call while Open with `now - openedAt >= cooldown` is allowed through
and handled as the trial of the HalfOpen state the breaker has transitioned
to; (4) a trial failure in HalfOpen returns to Open and resets `openedAt` to
`now`; (5) a trial success in HalfOpen that reaches the success threshold
returns to Closed with counters reset. -/
theorem circuit_breaker_state_machine (cfg : BreakerCfg) :
    (∀ (ts : List Nat) (tF : Nat),
        ts.length + 1 = cfg.failThreshold →
        (failRun cfg Breaker.init (ts ++ [tF])).state = CircuitState.Open ∧
          (failRun cfg Breaker.init (ts ++ [tF])).openedAt = tF) ∧
      (∀ (b : Breaker) (now : Nat) (opOk : Bool),
          b.state = CircuitState.Open → now - b.openedAt < cfg.cooldown →
          breakerCall cfg b now opOk = (b, none)) ∧
      (∀ (b : Breaker) (now : Nat) (opOk : Bool),
          b.state = CircuitState.Open → cfg.cooldown ≤ now - b.openedAt →
          breakerCall cfg b now opOk =
            (trialAfter cfg ⟨CircuitState.HalfOpen, b.failureCount, 0, b.openedAt⟩ now opOk,
              some opOk)) ∧
      (∀ (b : Breaker) (now : Nat),
          b.state = CircuitState.HalfOpen →
          breakerCall cfg b now false =
            (⟨CircuitState.Open, b.failureCount, 0, now⟩, some false)) ∧
      (∀ (b : Breaker) (now : Nat),
          b.state = CircuitState.HalfOpen → cfg.succThreshold ≤ b.successCount + 1 →
          breakerCall cfg b now true =
            (⟨CircuitState.Closed, 0, 0, b.openedAt⟩, some true)) := by
  refine ⟨?_, ?_, ?_, ?_, ?_⟩
  · intro ts tF hts
    rw [failRun_closed_opens cfg ts tF Breaker.init rfl (by simpa [Breaker.init] using hts)]
    exact ⟨rfl, rfl⟩
  · intro b now opOk hst hcool
    obtain ⟨st, fc, sc, oa⟩ := b
    simp only at hst hcool
    subst hst
    simp only [breakerCall, breakerAllows]
    rw [if_neg (by simp; omega)]
  · intro b now opOk hst hcool
    obtain ⟨st, fc, sc, oa⟩ := b
    simp only at hst hcool
    subst hst
    simp only [breakerCall, breakerAllows, breakerAfter]
    rw [if_pos (by simpa using hcool)]
  · intro b now hst
    obtain ⟨st, fc, sc, oa⟩ := b
    simp only at hst
    subst hst
    simp [breakerCall, breakerAllows, breakerAfter, trialAfter]
  · intro b now hst hsucc
    obtain ⟨st, fc, sc, oa⟩ := b
    simp only at hst hsucc
    subst hst
    simp only [breakerCall, breakerAllows, breakerAfter, trialAfter, if_true]
    rw [if_pos hsucc]

/-- Witness for C5 at a concrete configuration (threshold 2, cooldown 5,
success threshold 1): two failures at times 1 and 2 open the breaker at
time 2; the remaining clauses instantiated at concrete breakers. -/
theorem circuit_breaker_state_machine_witness :
    ([1].length + 1 = (⟨2, 5, 1⟩ : BreakerCfg).failThreshold ∧
        (failRun ⟨2, 5, 1⟩ Breaker.init ([1] ++ [2])).state = CircuitState.Open ∧
          (failRun ⟨2, 5, 1⟩ Breaker.init ([1] ++ [2])).openedAt = 2) ∧
      breakerCall ⟨2, 5, 1⟩ ⟨CircuitState.Open, 2, 0, 2⟩ 4 true =
          (⟨CircuitState.Open, 2, 0, 2⟩, none) ∧
      breakerCall ⟨2, 5, 1⟩ ⟨CircuitState.Open, 2, 0, 2⟩ 9 true =
          (trialAfter ⟨2, 5, 1⟩ ⟨CircuitState.HalfOpen, 2, 0, 2⟩ 9 true, some true) ∧
      breakerCall ⟨2, 5, 1⟩ ⟨CircuitState.HalfOpen, 2, 0, 2⟩ 11 false =
          (⟨CircuitState.Open, 2, 0, 11⟩, some false) ∧
      breakerCall ⟨2, 5, 1⟩ ⟨CircuitState.HalfOpen, 2, 0, 2⟩ 11 true =
          (⟨CircuitState.Closed, 0, 0, 2⟩, some true) := by
  obtain ⟨h1, h2, h3, h4, h5⟩ := circuit_breaker_state_machine ⟨2, 5, 1⟩
  exact ⟨⟨by decide, h1 [1] 2 (by decide)⟩,
    h2 ⟨CircuitState.Open, 2, 0, 2⟩ 4 true rfl (by decide),
    h3 ⟨CircuitState.Open, 2, 0, 2⟩ 9 true rfl (by decide),
    h4 ⟨CircuitState.HalfOpen, 2, 0, 2⟩ 11 rfl,
    h5 ⟨CircuitState.HalfOpen, 2, 0, 2⟩ 11 rfl (by decide)⟩

/-! ## Fingerprint

Modelled from the spec: a deterministic, order-independent string derived
from the normalized prompt text and the generation parameters (quality
tier); the normalization is the spec's documented example — case folding
and whitespace collapsing. The spec leaves the exact rule open; this is the
conservative choice it recommends. -/

/-- The quality tier enum; the frontend submits `"m"` (medium). -/
inductive Quality where
  | l
  | m
  | h
  deriving Repr, DecidableEq

def qualityChar : Quality → Char
  | Quality.l => 'l'
  | Quality.m => 'm'
  | Quality.h => 'h'

def qualityStr (q : Quality) : String := String.mk [qualityChar q]

/-- Splits a character list into maximal whitespace-free words, the
accumulator holding the current word reversed. -/
def wordsAux : List Char → List Char → List (List Char)
  | [], acc => if acc.isEmpty then [] else [acc.reverse]
  | c :: cs, acc =>
      if c.isWhitespace then
        if acc.isEmpty then wordsAux cs [] else acc.reverse :: wordsAux cs []
      else wordsAux cs (c :: acc)

def words (cs : List Char) : List (List Char) := wordsAux cs []

/-- Rejoins words with single spaces. -/
def joinWords : List (List Char) → List Char
  | [] => []
  | [w] => w
  | w :: ws => w ++ ' ' :: joinWords ws

/-- Modelled from the spec: prompt normalization by case folding and
whitespace collapsing (split on whitespace, drop empty fragments, rejoin
with single spaces, lowercase). -/
def normalize (s : String) : String :=
  String.mk (joinWords ((words s.data).map (List.map Char.toLower)))

/-- Modelled from the spec: the fingerprint of a request, the cache key for
both tiers. -/
def fingerprint (p : String) (q : Quality) : String :=
  normalize p ++ "|" ++ qualityStr q

theorem qualityChar_inj (q₁ q₂ : Quality) (h : qualityChar q₁ = qualityChar q₂) :
    q₁ = q₂ := by
  cases q₁ <;> cases q₂ <;> simp_all [qualityChar]

/-- Two requests have the same fingerprint exactly when they agree on the
normalized prompt and the quality tier. -/
theorem fingerprint_eq_iff (p₁ p₂ : String) (q₁ q₂ : Quality) :
    fingerprint p₁ q₁ = fingerprint p₂ q₂ ↔
      (normalize p₁ = normalize p₂ ∧ q₁ = q₂) := by
  constructor
  · intro h
    have hd : (normalize p₁).data ++ ['|', qualityChar q₁] =
        (normalize p₂).data ++ ['|', qualityChar q₂] := by
      have := congrArg String.data h
      simpa [fingerprint, qualityStr, String.data_append, List.append_assoc] using this
    have hlen : (['|', qualityChar q₁] : List Char).length =
        (['|', qualityChar q₂] : List Char).length := rfl
    obtain ⟨h1, h2⟩ := List.append_inj' hd hlen
    refine ⟨?_, ?_⟩
    · cases hn₁ : normalize p₁
      cases hn₂ : normalize p₂
      simp_all
    · apply qualityChar_inj
      simpa using h2
  · rintro ⟨h1, h2⟩
    rw [fingerprint, fingerprint, h1, h2]

/-! ## Request coordinator (sequential model)

Modelled from the spec: `Generate(clientId, prompt, quality) -> artifactRef
| error`. Steps: rate-limiter admission (fail fast on rejection — no cache
lookup, no external call); fingerprinting; render-cache check (a hit
returns the cached artifact without touching either external stage);
prompt-cache check (a hit feeds the rendering stage, skipping code
generation); on a full miss, the code-generation call goes through the
circuit breaker, a success populates the prompt cache before the rendering
stage runs, and a rendering success populates the render cache. Errors
never populate the render cache; the external services are deterministic
oracles in `Env`; timeouts are folded into the failing result of the
corresponding stage. `Stats` counts cache lookups and external-stage
invocations of the one call. -/

instance {ε α : Type} [DecidableEq ε] [DecidableEq α] : DecidableEq (Except ε α) := fun a b =>
  match a, b with
  | Except.ok x, Except.ok y =>
      if h : x = y then Decidable.isTrue (congrArg Except.ok h)
      else Decidable.isFalse (fun hc => h (Except.ok.inj hc))
  | Except.error x, Except.error y =>
      if h : x = y then Decidable.isTrue (congrArg Except.error h)
      else Decidable.isFalse (fun hc => h (Except.error.inj hc))
  | Except.ok _, Except.error _ => Decidable.isFalse (fun hc => Except.noConfusion hc)
  | Except.error _, Except.ok _ => Decidable.isFalse (fun hc => Except.noConfusion hc)

inductive GenError where
  | rateLimited
  | serviceUnavailable
  | generationFailed
  | renderFailed
  deriving Repr, DecidableEq

/-- The external collaborators as deterministic oracles: code generation
(invoked on the normalized prompt) and rendering. -/
structure Env where
  genCode : String → Except Unit String
  render : String → Quality → Except Unit String

structure Config where
  rateN : Nat
  rateW : Nat
  promptTTL : Nat
  renderTTL : Nat
  bc : BreakerCfg

structure SysState where
  promptCache : TTLCache String
  renderCache : TTLCache String
  rate : List (String × List Nat)
  breaker : Breaker
  deriving DecidableEq

/-- Observable effort of one `Generate` call: cache lookups performed and
external stages invoked. -/
structure Stats where
  renderCacheLookups : Nat
  promptCacheLookups : Nat
  genCalls : Nat
  renderCalls : Nat
  deriving Repr, DecidableEq

def SysState.initial : SysState := ⟨[], [], [], Breaker.init⟩

/-- Modelled from the spec: one sequential `Generate` call. Returns the new
system state, the outcome, and the observable stats of the call. -/
def generate (cfg : Config) (env : Env) (st : SysState) (cid : String)
    (prompt : String) (q : Quality) (now : Nat) :
    SysState × Except GenError String × Stats :=
  let w := ((st.rate.lookup cid).getD [])
  let a := admitStep cfg.rateN cfg.rateW w now
  let st₁ : SysState :=
    { st with rate := (cid, a.2) :: st.rate.filter (fun p => !(p.1 == cid)) }
  if !a.1 then
    (st₁, Except.error GenError.rateLimited, ⟨0, 0, 0, 0⟩)
  else
    let fp := fingerprint prompt q
    match tcGet st₁.renderCache fp now with
    | some art => (st₁, Except.ok art, ⟨1, 0, 0, 0⟩)
    | none =>
        match tcGet st₁.promptCache fp now with
        | some script =>
            match env.render script q with
            | Except.ok art =>
                ({ st₁ with
                    renderCache := tcPut st₁.renderCache fp art cfg.renderTTL now },
                  Except.ok art, ⟨1, 1, 0, 1⟩)
            | Except.error _ =>
                (st₁, Except.error GenError.renderFailed, ⟨1, 1, 0, 1⟩)
        | none =>
            if breakerAllows cfg.bc st₁.breaker now then
              match env.genCode (normalize prompt) with
              | Except.error _ =>
                  ({ st₁ with breaker := breakerAfter cfg.bc st₁.breaker now false },
                    Except.error GenError.generationFailed, ⟨1, 1, 1, 0⟩)
              | Except.ok script =>
                  let st₂ : SysState :=
                    { st₁ with
                        breaker := breakerAfter cfg.bc st₁.breaker now true,
                        promptCache :=
                          tcPut st₁.promptCache fp script cfg.promptTTL now }
                  match env.render script q with
                  | Except.ok art =>
                      ({ st₂ with
                          renderCache := tcPut st₂.renderCache fp art cfg.renderTTL now },
                        Except.ok art, ⟨1, 1, 1, 1⟩)
                  | Except.error _ =>
                      (st₂, Except.error GenError.renderFailed, ⟨1, 1, 1, 1⟩)
            else
              (st₁, Except.error GenError.serviceUnavailable, ⟨1, 1, 0, 0⟩)

/-! ## Claim C6 -/

/-- **C6.** A `Generate` call rejected by the rate limiter fails with the
`RateLimited` error; the prompt cache, render cache and breaker are
untouched, and the stats record zero cache lookups and zero external-stage
invocations (the rejection is returned once, never retried internally). -/
theorem generate_rate_limited (cfg : Config) (env : Env) (st : SysState)
    (cid prompt : String) (q : Quality) (now : Nat)
    (h : (admitStep cfg.rateN cfg.rateW ((st.rate.lookup cid).getD []) now).1 = false) :
    (generate cfg env st cid prompt q now).2.1 = Except.error GenError.rateLimited ∧
      (generate cfg env st cid prompt q now).1.promptCache = st.promptCache ∧
      (generate cfg env st cid prompt q now).1.renderCache = st.renderCache ∧
      (generate cfg env st cid prompt q now).1.breaker = st.breaker ∧
      (generate cfg env st cid prompt q now).2.2 = ⟨0, 0, 0, 0⟩ := by
  simp [generate, h]

/-- Witness for C6: a limiter with budget 0 rejects the very first request
and nothing else happens. -/
theorem generate_rate_limited_witness :
    ((admitStep 0 10 (((SysState.initial.rate.lookup "c").getD [])) 3).1 = false) ∧
      ((generate ⟨0, 10, 5, 5, ⟨5, 5, 1⟩⟩ ⟨fun _ => Except.ok "s", fun _ _ => Except.ok "a"⟩
            SysState.initial "c" "p" Quality.m 3).2.1 =
          Except.error GenError.rateLimited ∧
        (generate ⟨0, 10, 5, 5, ⟨5, 5, 1⟩⟩ ⟨fun _ => Except.ok "s", fun _ _ => Except.ok "a"⟩
              SysState.initial "c" "p" Quality.m 3).1.promptCache =
            SysState.initial.promptCache ∧
        (generate ⟨0, 10, 5, 5, ⟨5, 5, 1⟩⟩ ⟨fun _ => Except.ok "s", fun _ _ => Except.ok "a"⟩
              SysState.initial "c" "p" Quality.m 3).1.renderCache =
            SysState.initial.renderCache ∧
        (generate ⟨0, 10, 5, 5, ⟨5, 5, 1⟩⟩ ⟨fun _ => Except.ok "s", fun _ _ => Except.ok "a"⟩
              SysState.initial "c" "p" Quality.m 3).1.breaker =
            SysState.initial.breaker ∧
        (generate ⟨0, 10, 5, 5, ⟨5, 5, 1⟩⟩ ⟨fun _ => Except.ok "s", fun _ _ => Except.ok "a"⟩
              SysState.initial "c" "p" Quality.m 3).2.2 =
          ⟨0, 0, 0, 0⟩) :=
  ⟨by decide,
    generate_rate_limited ⟨0, 10, 5, 5, ⟨5, 5, 1⟩⟩
      ⟨fun _ => Except.ok "s", fun _ _ => Except.ok "a"⟩
      SysState.initial "c" "p" Quality.m 3 (by decide)⟩

/-! ## Claim C3 -/

/-- **C3.** (a) An admitted `Generate` whose fingerprint has a live render
cache entry returns that cached artifact and invokes neither the
code-generation stage nor the rendering stage (stats `⟨1, 0, 0, 0⟩`: one
render-cache lookup, nothing else). (b) Two sequential identical requests
with no failures and a full miss on the first: the first call returns
artifact `art` (populating both caches); the second call, admitted within
the render-cache TTL, returns the same `art` with no external call. -/
theorem generate_render_cache_hit (cfg : Config) (env : Env) (st : SysState)
    (cid prompt script art : String) (q : Quality) (t₁ t₂ : Nat)
    (hadm₁ : (admitStep cfg.rateN cfg.rateW ((st.rate.lookup cid).getD []) t₁).1 = true) :
    ((∀ a, tcGet st.renderCache (fingerprint prompt q) t₁ = some a →
        generate cfg env st cid prompt q t₁ =
          ({ st with rate := (cid, (admitStep cfg.rateN cfg.rateW
                ((st.rate.lookup cid).getD []) t₁).2) ::
                  st.rate.filter (fun p => !(p.1 == cid)) },
            Except.ok a, ⟨1, 0, 0, 0⟩))) ∧
      (tcGet st.renderCache (fingerprint prompt q) t₁ = none →
        tcGet st.promptCache (fingerprint prompt q) t₁ = none →
        breakerAllows cfg.bc st.breaker t₁ = true →
        env.genCode (normalize prompt) = Except.ok script →
        env.render script q = Except.ok art →
        t₁ ≤ t₂ → t₂ < t₁ + cfg.renderTTL →
        (admitStep cfg.rateN cfg.rateW
            (((generate cfg env st cid prompt q t₁).1.rate.lookup cid).getD []) t₂).1 =
          true →
        (generate cfg env st cid prompt q t₁).2.1 = Except.ok art ∧
          (generate cfg env (generate cfg env st cid prompt q t₁).1 cid prompt q t₂).2.1 =
            Except.ok art ∧
          (generate cfg env (generate cfg env st cid prompt q t₁).1 cid prompt q t₂).2.2 =
            ⟨1, 0, 0, 0⟩) := by
  constructor
  · intro a hhit
    simp [generate, hadm₁, hhit]
  · intro hmr hmp hbrk hgen hrnd ht₁₂ httl hadm₂
    have hfirst : generate cfg env st cid prompt q t₁ =
        ({ st with
            rate := (cid, (admitStep cfg.rateN cfg.rateW
                ((st.rate.lookup cid).getD []) t₁).2) ::
              st.rate.filter (fun p => !(p.1 == cid)),
            breaker := breakerAfter cfg.bc st.breaker t₁ true,
            promptCache :=
              tcPut st.promptCache (fingerprint prompt q) script cfg.promptTTL t₁,
            renderCache :=
              tcPut st.renderCache (fingerprint prompt q) art cfg.renderTTL t₁ },
          Except.ok art, ⟨1, 1, 1, 1⟩) := by
      simp [generate, hadm₁, hmr, hmp, hbrk, hgen, hrnd]
    have hhit₂ : tcGet (tcPut st.renderCache (fingerprint prompt q) art cfg.renderTTL t₁)
        (fingerprint prompt q) t₂ = some art := by
      rw [tcGet_tcPut _ _ _ _ _ _ ht₁₂, if_pos httl]
    rw [hfirst] at hadm₂
    simp only [List.lookup_cons_self, Option.getD_some] at hadm₂
    refine ⟨by rw [hfirst], ?_, ?_⟩ <;>
      · rw [hfirst]
        simp [generate, hadm₂, hhit₂]

/-- Witness for C3: limiter 5 per 60, breaker threshold 5, both caches
empty; a successful first call at time 0 and a repeat at time 3 inside the
render TTL 7. -/
theorem generate_render_cache_hit_witness :
    ((admitStep 5 60 (((SysState.initial.rate.lookup "c").getD [])) 0).1 = true) ∧
      ((∀ a, tcGet SysState.initial.renderCache (fingerprint "p" Quality.m) 0 = some a →
          generate ⟨5, 60, 9, 7, ⟨5, 5, 1⟩⟩
              ⟨fun _ => Except.ok "s", fun _ _ => Except.ok "a"⟩
              SysState.initial "c" "p" Quality.m 0 =
            ({ SysState.initial with
                rate := ("c", (admitStep 5 60
                      ((SysState.initial.rate.lookup "c").getD []) 0).2) ::
                    SysState.initial.rate.filter (fun p => !(p.1 == "c")) },
              Except.ok a, ⟨1, 0, 0, 0⟩)) ∧
        (tcGet SysState.initial.renderCache (fingerprint "p" Quality.m) 0 = none →
          tcGet SysState.initial.promptCache (fingerprint "p" Quality.m) 0 = none →
          breakerAllows ⟨5, 5, 1⟩ SysState.initial.breaker 0 = true →
          (fun (_ : String) => Except.ok (ε := Unit) "s") (normalize "p") = Except.ok "s" →
          (fun (_ : String) (_ : Quality) => Except.ok (ε := Unit) "a") "s" Quality.m =
            Except.ok "a" →
          0 ≤ 3 → 3 < 0 + 7 →
          (admitStep 5 60
              (((generate ⟨5, 60, 9, 7, ⟨5, 5, 1⟩⟩
                    ⟨fun _ => Except.ok "s", fun _ _ => Except.ok "a"⟩
                    SysState.initial "c" "p" Quality.m 0).1.rate.lookup "c").getD []) 3).1 =
            true →
          (generate ⟨5, 60, 9, 7, ⟨5, 5, 1⟩⟩
              ⟨fun _ => Except.ok "s", fun _ _ => Except.ok "a"⟩
              SysState.initial "c" "p" Quality.m 0).2.1 = Except.ok "a" ∧
            (generate ⟨5, 60, 9, 7, ⟨5, 5, 1⟩⟩
                ⟨fun _ => Except.ok "s", fun _ _ => Except.ok "a"⟩
                (generate ⟨5, 60, 9, 7, ⟨5, 5, 1⟩⟩
                    ⟨fun _ => Except.ok "s", fun _ _ => Except.ok "a"⟩
                    SysState.initial "c" "p" Quality.m 0).1 "c" "p" Quality.m 3).2.1 =
              Except.ok "a" ∧
            (generate ⟨5, 60, 9, 7, ⟨5, 5, 1⟩⟩
                ⟨fun _ => Except.ok "s", fun _ _ => Except.ok "a"⟩
                (generate ⟨5, 60, 9, 7, ⟨5, 5, 1⟩⟩
                    ⟨fun _ => Except.ok "s", fun _ _ => Except.ok "a"⟩
                    SysState.initial "c" "p" Quality.m 0).1 "c" "p" Quality.m 3).2.2 =
              ⟨1, 0, 0, 0⟩)) :=
  ⟨by decide,
    generate_render_cache_hit ⟨5, 60, 9, 7, ⟨5, 5, 1⟩⟩
      ⟨fun _ => Except.ok "s", fun _ _ => Except.ok "a"⟩
      SysState.initial "c" "p" "s" "a" Quality.m 0 3 (by decide)⟩

/-! ## Claim C7 -/

/-- A concrete environment whose code generation succeeds and whose
rendering always fails. -/
def envRenderFail : Env := ⟨fun _ => Except.ok "script", fun _ _ => Except.error ()⟩

def cfgSmall : Config := ⟨5, 60, 9, 7, ⟨5, 5, 1⟩⟩

/-- **C7 counterexample.** A request whose code generation succeeds and
whose rendering fails returns the `RenderFailed` error, yet the prompt
cache *has* been written by the failing request (the spec's step 6
populates it after the successful generation stage, before rendering). -/
theorem generate_error_writes_prompt_cache_cex :
    (generate cfgSmall envRenderFail SysState.initial "c" "p" Quality.m 0).2.1 =
        Except.error GenError.renderFailed ∧
      (generate cfgSmall envRenderFail SysState.initial "c" "p" Quality.m 0).1.promptCache ≠
        SysState.initial.promptCache := by
  decide

/-- **C7 (amended).** On every error path of `Generate` the render cache is
unchanged, and the prompt cache is unchanged too — except on the
render-failure path that follows a successful code-generation call, where
the failing request has already cached the generated script (spec §4.4
step 6). The single caller of the sequential model receives the error. -/
theorem generate_error_cache_effects (cfg : Config) (env : Env) (st : SysState)
    (cid prompt : String) (q : Quality) (now : Nat) (e : GenError)
    (h : (generate cfg env st cid prompt q now).2.1 = Except.error e) :
    (generate cfg env st cid prompt q now).1.renderCache = st.renderCache ∧
      ((generate cfg env st cid prompt q now).1.promptCache = st.promptCache ∨
        (e = GenError.renderFailed ∧ ∃ script,
          env.genCode (normalize prompt) = Except.ok script ∧
          (generate cfg env st cid prompt q now).1.promptCache =
            tcPut st.promptCache (fingerprint prompt q) script cfg.promptTTL now)) := by
  cases ha : (admitStep cfg.rateN cfg.rateW ((st.rate.lookup cid).getD []) now).1 with
  | false => refine ⟨?_, Or.inl ?_⟩ <;> simp [generate, ha]
  | true =>
      cases hr : tcGet st.renderCache (fingerprint prompt q) now with
      | some art => simp [generate, ha, hr] at h
      | none =>
          cases hp : tcGet st.promptCache (fingerprint prompt q) now with
          | some script =>
              cases hrend : env.render script q with
              | ok art => simp [generate, ha, hr, hp, hrend] at h
              | error u => refine ⟨?_, Or.inl ?_⟩ <;> simp [generate, ha, hr, hp, hrend]
          | none =>
              cases hb : breakerAllows cfg.bc st.breaker now with
              | false => refine ⟨?_, Or.inl ?_⟩ <;> simp [generate, ha, hr, hp, hb]
              | true =>
                  cases hg : env.genCode (normalize prompt) with
                  | error u => refine ⟨?_, Or.inl ?_⟩ <;> simp [generate, ha, hr, hp, hb, hg]
                  | ok script =>
                      cases hrend : env.render script q with
                      | ok art => simp [generate, ha, hr, hp, hb, hg, hrend] at h
                      | error u =>
                          have he : e = GenError.renderFailed := by
                            simp [generate, ha, hr, hp, hb, hg, hrend] at h
                            exact h.symm
                          refine ⟨by simp [generate, ha, hr, hp, hb, hg, hrend],
                            Or.inr ⟨he, script, rfl, ?_⟩⟩
                          simp [generate, ha, hr, hp, hb, hg, hrend]

/-- Witness for C7 (amended) at the counterexample input: the render cache
is untouched and the prompt cache write is exactly the generated script. -/
theorem generate_error_cache_effects_witness :
    ((generate cfgSmall envRenderFail SysState.initial "c" "p" Quality.m 0).2.1 =
        Except.error GenError.renderFailed) ∧
      ((generate cfgSmall envRenderFail SysState.initial "c" "p" Quality.m 0).1.renderCache =
          SysState.initial.renderCache ∧
        ((generate cfgSmall envRenderFail SysState.initial "c" "p" Quality.m 0).1.promptCache =
            SysState.initial.promptCache ∨
          (GenError.renderFailed = GenError.renderFailed ∧ ∃ script,
            envRenderFail.genCode (normalize "p") = Except.ok script ∧
            (generate cfgSmall envRenderFail SysState.initial "c" "p"
                  Quality.m 0).1.promptCache =
              tcPut SysState.initial.promptCache (fingerprint "p" Quality.m) script
                cfgSmall.promptTTL 0))) :=
  ⟨by decide,
    generate_error_cache_effects cfgSmall envRenderFail SysState.initial "c" "p"
      Quality.m 0 GenError.renderFailed (by decide)⟩

/-! ## Claim C8 -/

/-- **C8.** Fingerprinting is a pure, total, deterministic function of the
normalized prompt and the quality tier: (1) two computations over inputs
that agree on normalized prompt and quality yield equal fingerprints;
(2) fingerprints are equal *exactly* when the normalized prompts and
qualities agree (no other collisions); (3) two requests with the same
fingerprint are the same logical request to the whole pipeline — from the
same state, `Generate` treats them identically (in particular both cache
tiers key on the fingerprint alone). -/
theorem fingerprint_deterministic :
    (∀ (p₁ p₂ : String) (q₁ q₂ : Quality),
        normalize p₁ = normalize p₂ → q₁ = q₂ →
        fingerprint p₁ q₁ = fingerprint p₂ q₂) ∧
      (∀ (p₁ p₂ : String) (q₁ q₂ : Quality),
        fingerprint p₁ q₁ = fingerprint p₂ q₂ ↔
          (normalize p₁ = normalize p₂ ∧ q₁ = q₂)) ∧
      (∀ (cfg : Config) (env : Env) (st : SysState) (cid : String) (now : Nat)
          (p₁ p₂ : String) (q₁ q₂ : Quality),
        fingerprint p₁ q₁ = fingerprint p₂ q₂ →
        generate cfg env st cid p₁ q₁ now = generate cfg env st cid p₂ q₂ now) := by
  refine ⟨?_, fingerprint_eq_iff, ?_⟩
  · intro p₁ p₂ q₁ q₂ hn hq
    exact (fingerprint_eq_iff p₁ p₂ q₁ q₂).mpr ⟨hn, hq⟩
  · intro cfg env st cid now p₁ p₂ q₁ q₂ hf
    obtain ⟨hn, hq⟩ := (fingerprint_eq_iff p₁ p₂ q₁ q₂).mp hf
    subst hq
    simp only [generate, fingerprint, hn]

/-- Witness for C8 at concrete inputs: `"A  Red   Circle"` and
`"a red circle"` normalize identically, so their fingerprints agree and
`Generate` treats them identically from the initial state. -/
theorem fingerprint_deterministic_witness :
    fingerprint "A  Red   Circle" Quality.m = fingerprint "a red circle" Quality.m ∧
      generate cfgSmall envRenderFail SysState.initial "c" "A  Red   Circle" Quality.m 0 =
        generate cfgSmall envRenderFail SysState.initial "c" "a red circle" Quality.m 0 :=
  ⟨fingerprint_deterministic.1 "A  Red   Circle" "a red circle" Quality.m Quality.m
      (by decide) rfl,
    fingerprint_deterministic.2.2 cfgSmall envRenderFail SysState.initial "c" 0
      "A  Red   Circle" "a red circle" Quality.m Quality.m
      (fingerprint_deterministic.1 "A  Red   Circle" "a red circle" Quality.m Quality.m
        (by decide) rfl)⟩

/-! ## Single-flight coordination (event model)

Modelled from the spec: the in-flight registry for one fingerprint. An
`arrive` event is a `Generate` call reaching the single-flight step: if a
computation is already in progress the caller attaches as a waiter,
otherwise it starts the computation. A `complete` event is that one
computation finishing: it ran the code-generation stage once and, only if
generation succeeded, the rendering stage once; the resulting outcome is
resolved to every current waiter and the in-flight entry is retired. -/

inductive FEvent where
  | arrive (caller : Nat)
  | complete (genRes : Option String) (renderRes : Option String)

structure FlightState where
  active : Bool
  waiters : List Nat
  genCalls : Nat
  renderCalls : Nat
  delivered : List (Nat × Except GenError String)
  deriving DecidableEq

def FlightState.init : FlightState := ⟨false, [], 0, 0, []⟩

/-- The outcome of the in-flight computation given the stage results. -/
def outcomeOf (genRes renderRes : Option String) : Except GenError String :=
  match genRes with
  | none => Except.error GenError.generationFailed
  | some _ =>
      match renderRes with
      | none => Except.error GenError.renderFailed
      | some art => Except.ok art

def flightStep (s : FlightState) : FEvent → FlightState
  | FEvent.arrive c =>
      if s.active then { s with waiters := c :: s.waiters }
      else { s with active := true, waiters := [c] }
  | FEvent.complete genRes renderRes =>
      if s.active then
        { active := false
          waiters := []
          genCalls := s.genCalls + 1
          renderCalls := s.renderCalls + (if genRes.isSome then 1 else 0)
          delivered :=
            s.waiters.map (fun c => (c, outcomeOf genRes renderRes)) ++ s.delivered }
      else s

def flightRun (s : FlightState) : List FEvent → FlightState
  | [] => s
  | e :: es => flightRun (flightStep s e) es

theorem flightRun_append (xs ys : List FEvent) :
    ∀ s, flightRun s (xs ++ ys) = flightRun (flightRun s xs) ys := by
  induction xs with
  | nil => intro s; rfl
  | cons x xs ih => intro s; simp [flightRun, ih]

/-- While a computation is in flight, arrivals only attach as waiters. -/
theorem flightRun_arrivals_active (cs : List Nat) :
    ∀ s : FlightState, s.active = true →
      flightRun s (cs.map FEvent.arrive) = { s with waiters := cs.reverse ++ s.waiters } := by
  induction cs with
  | nil => intro s hs; simp [flightRun]
  | cons c cs ih =>
      intro s hs
      simp only [List.map_cons, flightRun, flightStep, hs, if_true]
      rw [ih ⟨true, c :: s.waiters, s.genCalls, s.renderCalls, s.delivered⟩ rfl]
      simp

/-! ## Claim C1 -/

/-- **C1 counterexample.** Two concurrent `Generate` calls for the same
fingerprint, issued before any completes, whose shared computation fails at
the code-generation stage: both callers receive the identical error, the
code-generation stage is invoked exactly once, but the rendering stage is
invoked zero times — not exactly once as the claim states. -/
theorem single_flight_cex :
    (flightRun FlightState.init
          ((([0, 1] : List Nat).map FEvent.arrive) ++ [FEvent.complete none none])).genCalls =
        1 ∧
      (flightRun FlightState.init
          ((([0, 1] : List Nat).map FEvent.arrive) ++ [FEvent.complete none none])).delivered =
        [(1, Except.error GenError.generationFailed), (0, Except.error GenError.generationFailed)] ∧
      (flightRun FlightState.init
          ((([0, 1] : List Nat).map FEvent.arrive) ++ [FEvent.complete none none])).renderCalls =
        0 := by
  decide

/-- **C1 (amended).** For `K ≥ 1` concurrent `Generate` calls with the same
fingerprint issued before any completes: the code-generation stage is
invoked exactly once; the rendering stage is invoked exactly once when
generation succeeds and not at all when it fails; and every one of the `K`
callers receives the identical outcome (the same success value or the same
error). -/
theorem single_flight (c₀ : Nat) (callers : List Nat)
    (genRes renderRes : Option String) :
    (flightRun FlightState.init
          (((c₀ :: callers).map FEvent.arrive) ++ [FEvent.complete genRes renderRes])).genCalls =
        1 ∧
      (flightRun FlightState.init
            (((c₀ :: callers).map FEvent.arrive) ++
              [FEvent.complete genRes renderRes])).renderCalls =
        (if genRes.isSome then 1 else 0) ∧
      (flightRun FlightState.init
            (((c₀ :: callers).map FEvent.arrive) ++
              [FEvent.complete genRes renderRes])).delivered =
        ((c₀ :: callers).reverse).map (fun c => (c, outcomeOf genRes renderRes)) := by
  have harr : flightRun FlightState.init ((c₀ :: callers).map FEvent.arrive) =
      { active := true, waiters := callers.reverse ++ [c₀], genCalls := 0,
        renderCalls := 0, delivered := [] } := by
    simp only [List.map_cons, flightRun, flightStep, FlightState.init, Bool.false_eq_true,
      if_false]
    rw [flightRun_arrivals_active callers _ rfl]
  rw [flightRun_append, harr]
  simp [flightRun, flightStep, outcomeOf]

/-! ## Serverless generate proxy

Embedded from the source (`api/generate.js` handler): CORS headers are set
unconditionally (not observable in this model); `OPTIONS` gets a 200 with
an empty body; any method other than `OPTIONS`/`POST` gets a 405 with an
error body and no fetch; a missing backend URL gives a 500; otherwise the
request is forwarded, a non-ok backend status is passed through with the
backend's JSON error body (an empty object if its body fails to parse),
an ok backend response yields 200 with its JSON data, and a fetch failure
or a JSON parse failure on the ok path falls into the catch block's 500. -/

/-- A JSON object, abstracted as a field list. -/
inductive Json where
  | obj (fields : List (String × String))
  deriving Repr, DecidableEq

/-- The result of `fetch` on the backend: a thrown error (network failure),
or a response with its status and the result of parsing its body as JSON. -/
inductive FetchRes where
  | fail (detail : String)
  | resp (status : Nat) (body : Except String Json)
  deriving DecidableEq

structure HttpOut where
  status : Nat
  body : Option Json
  deriving Repr, DecidableEq

/-- `Response.ok`: status in the 2xx range. -/
def respOk (status : Nat) : Bool := decide (200 ≤ status) && decide (status < 300)

/-- Embedded from the source: the proxy handler. Returns the response sent
to the client and whether a fetch to the backend was issued. -/
def handler (method : String) (backendUrl : Option String) (fr : FetchRes) :
    HttpOut × Bool :=
  if method == "OPTIONS" then (⟨200, none⟩, false)
  else if !(method == "POST") then
    (⟨405, some (Json.obj [("error", "Method not allowed")])⟩, false)
  else
    match backendUrl with
    | none => (⟨500, some (Json.obj [("error", "Backend URL not configured")])⟩, false)
    | some _ =>
        match fr with
        | FetchRes.fail detail =>
            (⟨500, some (Json.obj
              [("error", "Failed to connect to backend"), ("details", detail)])⟩, true)
        | FetchRes.resp status body =>
            if respOk status then
              match body with
              | Except.ok data => (⟨200, some data⟩, true)
              | Except.error detail =>
                  (⟨500, some (Json.obj
                    [("error", "Failed to connect to backend"), ("details", detail)])⟩, true)
            else
              (⟨status, some (match body with
                | Except.ok j => j
                | Except.error _ => Json.obj [])⟩, true)

/-! ## Claim C9 -/

/-- **C9.** A request whose method is neither `OPTIONS` nor `POST` is
answered with status 405 and body `{"error": "Method not allowed"}` and no
fetch is issued; every `OPTIONS` request is answered with status 200 and an
empty body (and no fetch). -/
theorem handler_method_gate (method : String) (backendUrl : Option String)
    (fr : FetchRes) (h₁ : method ≠ "OPTIONS") (h₂ : method ≠ "POST") :
    handler method backendUrl fr =
        (⟨405, some (Json.obj [("error", "Method not allowed")])⟩, false) ∧
      ∀ (url' : Option String) (fr' : FetchRes),
        handler "OPTIONS" url' fr' = (⟨200, none⟩, false) := by
  refine ⟨?_, fun url' fr' => rfl⟩
  simp [handler, h₁, h₂]

/-- Witness for C9 at a concrete input: a `GET` request. -/
theorem handler_method_gate_witness :
    handler "GET" none (FetchRes.fail "e") =
        (⟨405, some (Json.obj [("error", "Method not allowed")])⟩, false) ∧
      ∀ (url' : Option String) (fr' : FetchRes),
        handler "OPTIONS" url' fr' = (⟨200, none⟩, false) :=
  handler_method_gate "GET" none (FetchRes.fail "e") (by decide) (by decide)

/-! ## Claim C10 -/

/-- **C10.** For a forwarded `POST` with a configured backend URL: a non-ok
backend status is passed through to the client with the backend's JSON
error body — an empty JSON object when it does not parse; an ok backend
response yields status 200 with the backend's JSON data; and the client
receives a 200-with-data response *only* when the backend response was ok
with parseable JSON data. -/
theorem handler_backend_passthrough (u : String) (fr : FetchRes) :
    (∀ (status : Nat) (body : Except String Json), respOk status = false →
        handler "POST" (some u) (FetchRes.resp status body) =
          (⟨status, some (match body with
            | Except.ok j => j
            | Except.error _ => Json.obj [])⟩, true)) ∧
      (∀ (status : Nat) (data : Json), respOk status = true →
        handler "POST" (some u) (FetchRes.resp status (Except.ok data)) =
          (⟨200, some data⟩, true)) ∧
      (∀ (fetched : Bool) (data : Json),
        handler "POST" (some u) fr = (⟨200, some data⟩, fetched) →
        ∃ status, fr = FetchRes.resp status (Except.ok data) ∧ respOk status = true) := by
  refine ⟨?_, ?_, ?_⟩
  · intro status body h
    simp [handler, h]
  · intro status data h
    simp [handler, h]
  · intro fetched data hh
    cases fr with
    | fail detail => simp [handler] at hh
    | resp status body =>
        by_cases h : respOk status = true
        · cases body with
          | ok j =>
              simp [handler, h] at hh
              exact ⟨status, by rw [hh.1], h⟩
          | error detail => simp [handler, h] at hh
        · rw [Bool.not_eq_true] at h
          simp [handler, h] at hh
          obtain ⟨h200, _⟩ := hh.1
          rw [h200] at h
          simp [respOk] at h

/-- Witness for C10 at a concrete input: backend answers 404 with a JSON
error body, and separately an ok 200 response passes its data through. -/
theorem handler_backend_passthrough_witness :
    (respOk 404 = false ∧
        handler "POST" (some "http://b") (FetchRes.resp 404 (Except.ok (Json.obj [("error", "not found")]))) =
          (⟨404, some (Json.obj [("error", "not found")])⟩, true)) ∧
      (respOk 200 = true ∧
        handler "POST" (some "http://b") (FetchRes.resp 200 (Except.ok (Json.obj [("ok", "1")]))) =
          (⟨200, some (Json.obj [("ok", "1")])⟩, true)) := by
  have h := handler_backend_passthrough "http://b" (FetchRes.fail "e")
  exact ⟨⟨by decide, h.1 404 (Except.ok (Json.obj [("error", "not found")])) (by decide)⟩,
    ⟨by decide, h.2.1 200 (Json.obj [("ok", "1")]) (by decide)⟩⟩

end P2F
